import Mathlib

/-!
# freezo backend: storage statements, handlers and bootstrap

A shallow embedding of `backend/internal/models/models.go`,
`backend/internal/db/db.go` and `backend/internal/api/handlers.go`.

* The three tables of `createTables` are lists of rows in insertion order,
  together with the `sqlite_sequence` counters of the AUTOINCREMENT keys.
* Every SQL text that occurs in the source is one function on `Store`.
* A handler is a function of the environment, the store before the request and
  the decoded request; it returns the status code, the response body, the
  store after the request and the number of storage calls it issued.
* The environment `Env` says, for the n-th storage call of one invocation
  (`Begin`, `Prepare`, `Query`, `QueryRow`, `Exec`, `Commit`, counted from 0),
  whether the call returns an error for a reason outside the store's contents
  (I/O, lock contention, exhausted rowids), which instant `CURRENT_TIMESTAMP`
  denotes for it, whether reading the rows of a query ends early, and on which
  rows of `items` the driver's `rows.Scan` returns an error.
* The `FOREIGN KEY` clauses of `items` are not enforced: the connection never
  turns `foreign_keys` on, and the repository's own test inserts an item with
  `category_id` 0, which no category has.
* Identities are mathematical integers; a request body is `none` when
  `json.NewDecoder(r.Body).Decode` returns an error, and the decoded value
  otherwise (fields missing from the JSON text hold Go's zero values). The
  `{id}` route parameter is the integer produced by `strconv.Atoi`.
-/

namespace Freezo

/-! ## models.go -/

/-- Instants (`time.Time`); `0` is Go's zero value. -/
abbrev Time := Nat

/-- Go struct `models.Freezer`; also the shape of a row of table `freezers`. -/
structure Freezer where
  ID : Int
  Name : String
  CreatedAt : Time
  UpdatedAt : Time
deriving DecidableEq, Repr

/-- Go struct `models.Category`; also the shape of a row of table `categories`. -/
structure Category where
  ID : Int
  Name : String
deriving DecidableEq, Repr

/-- Go struct `models.Item`. -/
structure Item where
  ID : Int
  Name : String
  CategoryID : Int
  FreezerID : Int
  Weight : String
  FrozenDate : Time
  CreatedAt : Time
  UpdatedAt : Time
deriving DecidableEq, Repr

/-! ## db.go: the tables -/

/-- A row of table `items`, each column with the type `GetItems` scans it into:
`weight` through `sql.NullString`, `frozen_date` through `sql.NullTime`, the
other columns directly into the fields of `models.Item`. -/
structure ItemRow where
  id : Int
  name : String
  category_id : Int
  freezer_id : Int
  weight : Option String
  frozen_date : Option Time
  created_at : Time
  updated_at : Time
deriving DecidableEq, Repr

/-- The persisted state: the rows of the three tables in insertion order and the
`sqlite_sequence` entry of each AUTOINCREMENT key. A table that does not exist
yet and an empty table are both the empty list. -/
structure Store where
  freezers : List Freezer
  categories : List Category
  items : List ItemRow
  freezerSeq : Int
  categorySeq : Int
  itemSeq : Int
deriving DecidableEq, Repr

/-- The store of a fresh database file. -/
def emptyStore : Store := ⟨[], [], [], 0, 0, 0⟩

/-- The behaviour of the storage engine during one invocation that the store's
contents do not determine. -/
structure Env where
  /-- The n-th storage call of the invocation returns an error. -/
  fails : Nat → Bool
  /-- The value of `CURRENT_TIMESTAMP` in the n-th storage call. -/
  now : Nat → Time
  /-- When the n-th storage call is a query that succeeded: `some k` if reading
  its rows ends with an error after `k` rows, `none` if every row is read. -/
  cut : Nat → Option Nat
  /-- Whether `rows.Scan` in `GetItems` returns an error on this row of `items`:
  the driver's conversion of the stored column values into the Go fields, for
  instance of a `frozen_date` text it cannot read back as a `time.Time`. -/
  scanErr : ItemRow → Bool

/-- The environment seen after `k` storage calls have been issued. -/
def Env.shift (env : Env) (k : Nat) : Env :=
  ⟨fun n => env.fails (n + k), fun n => env.now (n + k), fun n => env.cut (n + k),
   env.scanErr⟩

/-- An environment in which no storage call fails, every row of a query is read
and scanned without error, and the clock reads `t`. -/
def Env.quiet (t : Time) : Env :=
  ⟨fun _ => false, fun _ => t, fun _ => none, fun _ => false⟩

/-- `id INTEGER PRIMARY KEY AUTOINCREMENT`: the key given to a new row is one
more than the largest of the table's `sqlite_sequence` entry and the keys
present in the table. -/
def nextId (seq : Int) (ids : List Int) : Int :=
  ids.foldl max seq + 1

/-! ## The SQL statements of handlers.go and db.go -/

/-- `INSERT INTO freezers (name) VALUES (?)`; the second component is
`LastInsertId`. -/
def insertFreezer (now : Time) (name : String) (st : Store) : Store × Int :=
  let id := nextId st.freezerSeq (st.freezers.map Freezer.ID)
  ({ st with freezers := st.freezers ++ [⟨id, name, now, now⟩], freezerSeq := id }, id)

/-- `SELECT COUNT(*) FROM items WHERE freezer_id = ?`. -/
def countItemsOfFreezer (st : Store) (id : Int) : Nat :=
  (st.items.filter (fun r => decide (r.freezer_id = id))).length

/-- `DELETE FROM freezers WHERE id = ?`. -/
def deleteFreezerRow (st : Store) (id : Int) : Store :=
  { st with freezers := st.freezers.filter (fun f => !decide (f.ID = id)) }

/-- `INSERT INTO items (name, category_id, freezer_id, weight, frozen_date)
VALUES (?, ?, ?, ?, ?)` with the five fields of a `models.Item`; `created_at`
and `updated_at` take their default `CURRENT_TIMESTAMP`. The second component
is `LastInsertId`. -/
def insertItem (now : Time) (i : Item) (st : Store) : Store × Int :=
  let id := nextId st.itemSeq (st.items.map ItemRow.id)
  ({ st with
      items := st.items ++
        [⟨id, i.Name, i.CategoryID, i.FreezerID, some i.Weight, some i.FrozenDate, now, now⟩],
      itemSeq := id }, id)

/-- `DELETE FROM items WHERE id = ?`. -/
def deleteItemRow (st : Store) (id : Int) : Store :=
  { st with items := st.items.filter (fun r => !decide (r.id = id)) }

/-- `UPDATE items SET name=?, category_id=?, freezer_id=?, weight=?,
frozen_date=?, updated_at=CURRENT_TIMESTAMP WHERE id=?`. -/
def updateItemRow (now : Time) (i : Item) (id : Int) (st : Store) : Store :=
  { st with items := st.items.map (fun r =>
      if r.id = id then
        { r with name := i.Name, category_id := i.CategoryID, freezer_id := i.FreezerID,
                 weight := some i.Weight, frozen_date := some i.FrozenDate, updated_at := now }
      else r) }

/-- `UPDATE items SET freezer_id = ?, updated_at = CURRENT_TIMESTAMP WHERE id = ?`. -/
def moveItemRow (now : Time) (newFreezerID : Int) (id : Int) (st : Store) : Store :=
  { st with items := st.items.map (fun r =>
      if r.id = id then { r with freezer_id := newFreezerID, updated_at := now } else r) }

/-- `INSERT INTO categories (name) VALUES (?)` against `name TEXT NOT NULL
UNIQUE`: `none` is the constraint error raised when a row already has the name;
otherwise the new store and `LastInsertId`. -/
def insertCategory (name : String) (st : Store) : Option (Store × Int) :=
  if st.categories.any (fun c => decide (c.Name = name)) then none
  else
    let id := nextId st.categorySeq (st.categories.map Category.ID)
    some ({ st with categories := st.categories ++ [⟨id, name⟩], categorySeq := id }, id)

/-- `SELECT COUNT(*) FROM categories`. -/
def countCategories (st : Store) : Nat :=
  st.categories.length

/-! ## db.go: bootstrap -/

/-- Function `seedData`: count the categories (storage call 0); when the count
is zero insert `Uncategorized` (storage call 1). Either error is only logged. -/
def seedData (env : Env) (st : Store) : Store :=
  if env.fails 0 then st
  else if countCategories st = 0 then
    if env.fails 1 then st
    else
      match insertCategory "Uncategorized" st with
      | none => st
      | some r => r.1
  else st

/-- Function `createTables`: three `CREATE TABLE IF NOT EXISTS` statements
(storage calls 0, 1, 2), which leave the rows of an existing table alone, each
ending the process through `log.Fatal` on error (`none`); then `seedData`. -/
def createTables (env : Env) (st : Store) : Option Store :=
  if env.fails 0 then none
  else if env.fails 1 then none
  else if env.fails 2 then none
  else some (seedData (env.shift 3) st)

/-! ## handlers.go -/

/-- What a handler writes as the response body. -/
inductive Body where
  /-- Plain text of `http.Error`: `some m` for a literal message of the handler,
  `none` when the text is `err.Error()` of a decoding or storage error. -/
  | errorText (literal : Option String)
  /-- The JSON object with the single key `message`. -/
  | message (text : String)
  | freezers (l : List Freezer)
  | freezer (f : Freezer)
  | items (l : List Item)
  | item (i : Item)
  | categories (l : List Category)
  | category (c : Category)
deriving DecidableEq, Repr

/-- The effect of one handler invocation. -/
structure Outcome where
  /-- HTTP status code. -/
  code : Nat
  body : Body
  /-- The persisted state when the handler returns. -/
  store : Store
  /-- Number of storage calls issued (`Begin`, `Prepare`, `Query`, `QueryRow`,
  `Exec`, `Commit`). -/
  calls : Nat
deriving DecidableEq, Repr

/-- Request body of `ConsumeItemsBatch`. -/
structure BatchConsumeRequest where
  DeleteIDs : List Int
deriving DecidableEq, Repr

/-- Request body of `MoveItems`; a missing `item_ids` decodes to the empty list. -/
structure MoveItemsRequest where
  ItemIDs : List Int
  NewFreezerID : Int
deriving DecidableEq, Repr

/-- The `for rows.Next()` loop of the three list handlers over the rows of
storage call `n`: the handlers answer with the rows read when the loop ends and
do not consult `rows.Err`, so an iteration that ends early shortens the list. -/
def rowsRead {α : Type} (env : Env) (n : Nat) (rows : List α) : List α :=
  match env.cut n with
  | none => rows
  | some k => rows.take k

/-- Handler `GetFreezers`: one query (storage call 0); the rows read are
returned. Its `rows.Scan` reads an integer, a text and two timestamps written by
`INSERT INTO freezers (name)` with their defaults, which always scan. -/
def GetFreezers (env : Env) (st : Store) : Outcome :=
  if env.fails 0 then ⟨500, .errorText none, st, 1⟩
  else ⟨200, .freezers (rowsRead env 0 st.freezers), st, 1⟩

/-- Handler `CreateFreezer`. -/
def CreateFreezer (env : Env) (st : Store) (body : Option Freezer) : Outcome :=
  match body with
  | none => ⟨400, .errorText none, st, 0⟩
  | some f =>
    if env.fails 0 then ⟨500, .errorText none, st, 1⟩
    else
      let r := insertFreezer (env.now 0) f.Name st
      ⟨201, .freezer { f with ID := r.2 }, r.1, 1⟩

/-- Handler `DeleteFreezer`: count the dependent items (storage call 0), answer
409 when there is one, otherwise delete the freezer row (storage call 1). -/
def DeleteFreezer (env : Env) (st : Store) (id : Int) : Outcome :=
  if env.fails 0 then ⟨500, .errorText none, st, 1⟩
  else if countItemsOfFreezer st id > 0 then
    ⟨409, .errorText (some "Cannot delete freezer with items"), st, 1⟩
  else if env.fails 1 then ⟨500, .errorText none, st, 2⟩
  else ⟨200, .message "deleted", deleteFreezerRow st id, 2⟩

/-- The loop body of `GetItems`: a row scanned into a `models.Item`, an absent
`weight` or `frozen_date` leaving the field at its zero value. -/
def scanItem (r : ItemRow) : Item :=
  ⟨r.id, r.name, r.category_id, r.freezer_id, r.weight.getD "", r.frozen_date.getD 0,
   r.created_at, r.updated_at⟩

/-- The `for rows.Next()` loop of `GetItems` over the rows read: each row is
scanned and appended; the first `rows.Scan` error ends the handler (`none`). -/
def scanRows (env : Env) : List ItemRow → Option (List Item)
  | [] => some []
  | r :: rest =>
    if env.scanErr r then none
    else
      match scanRows env rest with
      | none => none
      | some items => some (scanItem r :: items)

/-- Handler `GetItems`: one query (storage call 0), answered with 500 when the
query or the scan of a row returns an error, otherwise with the items scanned. -/
def GetItems (env : Env) (st : Store) : Outcome :=
  if env.fails 0 then ⟨500, .errorText none, st, 1⟩
  else
    match scanRows env (rowsRead env 0 st.items) with
    | none => ⟨500, .errorText none, st, 1⟩
    | some items => ⟨200, .items items, st, 1⟩

/-- Handler `CreateItem`. -/
def CreateItem (env : Env) (st : Store) (body : Option Item) : Outcome :=
  match body with
  | none => ⟨400, .errorText none, st, 0⟩
  | some i =>
    if env.fails 0 then ⟨500, .errorText none, st, 1⟩
    else
      let r := insertItem (env.now 0) i st
      ⟨201, .item { i with ID := r.2 }, r.1, 1⟩

/-- The `for i := range items` loop of `CreateItemsBatch`, run inside the
transaction `tx`; `n` is the index of the next storage call. An error carries
the number of storage calls issued when the loop returned; success carries the
transaction's state and the items with their generated identities. -/
def createItemsLoop (env : Env) : Nat → List Item → Store → Except Nat (Store × List Item)
  | _, [], tx => .ok (tx, [])
  | n, i :: rest, tx =>
    if env.fails n then .error (n + 1)
    else
      let r := insertItem (env.now n) i tx
      match createItemsLoop env (n + 1) rest r.1 with
      | .error k => .error k
      | .ok out => .ok (out.1, { i with ID := r.2 } :: out.2)

/-- Handler `CreateItemsBatch`: `Begin` (call 0), `Prepare` (call 1), one `Exec`
per item, `Commit`. The deferred `Rollback` discards the transaction on every
return before a successful `Commit`; a failed `Commit` persists nothing. -/
def CreateItemsBatch (env : Env) (st : Store) (body : Option (List Item)) : Outcome :=
  match body with
  | none => ⟨400, .errorText none, st, 0⟩
  | some items =>
    if env.fails 0 then ⟨500, .errorText none, st, 1⟩
    else if env.fails 1 then ⟨500, .errorText none, st, 2⟩
    else
      match createItemsLoop env 2 items st with
      | .error k => ⟨500, .errorText none, st, k⟩
      | .ok out =>
        if env.fails (2 + items.length) then ⟨500, .errorText none, st, 3 + items.length⟩
        else ⟨201, .items out.2, out.1, 3 + items.length⟩

/-- Handler `DeleteItem`. -/
def DeleteItem (env : Env) (st : Store) (id : Int) : Outcome :=
  if env.fails 0 then ⟨500, .errorText none, st, 1⟩
  else ⟨200, .message "deleted", deleteItemRow st id, 1⟩

/-- Handler `UpdateItem`. -/
def UpdateItem (env : Env) (st : Store) (id : Int) (body : Option Item) : Outcome :=
  match body with
  | none => ⟨400, .errorText none, st, 0⟩
  | some i =>
    if env.fails 0 then ⟨500, .errorText none, st, 1⟩
    else ⟨200, .item { i with ID := id }, updateItemRow (env.now 0) i id st, 1⟩

/-- The `for _, id := range` loops of `ConsumeItemsBatch` and `MoveItems`: one
`Exec` of the prepared statement `step` per identity, inside the transaction
`tx`; `n` is the index of the next storage call. An error carries the number
of storage calls issued when the loop returned. -/
def execEach (env : Env) (step : Time → Int → Store → Store) :
    Nat → List Int → Store → Except Nat Store
  | _, [], tx => .ok tx
  | n, id :: rest, tx =>
    if env.fails n then .error (n + 1)
    else execEach env step (n + 1) rest (step (env.now n) id tx)

/-- Handler `ConsumeItemsBatch`: `Begin` (call 0); when the list is not empty
`Prepare` and one `Exec` per identity; `Commit`. -/
def ConsumeItemsBatch (env : Env) (st : Store) (body : Option BatchConsumeRequest) : Outcome :=
  match body with
  | none => ⟨400, .errorText none, st, 0⟩
  | some req =>
    if env.fails 0 then ⟨500, .errorText none, st, 1⟩
    else if req.DeleteIDs.length > 0 then
      if env.fails 1 then ⟨500, .errorText none, st, 2⟩
      else
        match execEach env (fun _ id tx => deleteItemRow tx id) 2 req.DeleteIDs st with
        | .error k => ⟨500, .errorText none, st, k⟩
        | .ok tx =>
          if env.fails (2 + req.DeleteIDs.length) then
            ⟨500, .errorText none, st, 3 + req.DeleteIDs.length⟩
          else ⟨200, .message "batch consumed", tx, 3 + req.DeleteIDs.length⟩
    else
      if env.fails 1 then ⟨500, .errorText none, st, 2⟩
      else ⟨200, .message "batch consumed", st, 2⟩

/-- Handler `MoveItems`: 400 on an empty identity list, before any storage call;
otherwise `Begin` (call 0), `Prepare` (call 1), one `Exec` per identity,
`Commit`. -/
def MoveItems (env : Env) (st : Store) (body : Option MoveItemsRequest) : Outcome :=
  match body with
  | none => ⟨400, .errorText none, st, 0⟩
  | some req =>
    if req.ItemIDs.length = 0 then ⟨400, .errorText (some "No items to move"), st, 0⟩
    else if env.fails 0 then ⟨500, .errorText none, st, 1⟩
    else if env.fails 1 then ⟨500, .errorText none, st, 2⟩
    else
      match execEach env (fun now id tx => moveItemRow now req.NewFreezerID id tx) 2
          req.ItemIDs st with
      | .error k => ⟨500, .errorText none, st, k⟩
      | .ok tx =>
        if env.fails (2 + req.ItemIDs.length) then
          ⟨500, .errorText none, st, 3 + req.ItemIDs.length⟩
        else ⟨200, .message "items moved", tx, 3 + req.ItemIDs.length⟩

/-- Handler `GetCategories`. -/
def GetCategories (env : Env) (st : Store) : Outcome :=
  if env.fails 0 then ⟨500, .errorText none, st, 1⟩
  else ⟨200, .categories (rowsRead env 0 st.categories), st, 1⟩

/-- Handler `CreateCategory`: the insert fails on a storage error or on the
`UNIQUE` constraint of `categories.name`; both are answered with 500. -/
def CreateCategory (env : Env) (st : Store) (body : Option Category) : Outcome :=
  match body with
  | none => ⟨400, .errorText none, st, 0⟩
  | some c =>
    if env.fails 0 then ⟨500, .errorText none, st, 1⟩
    else
      match insertCategory c.Name st with
      | none => ⟨500, .errorText none, st, 1⟩
      | some r => ⟨201, .category { c with ID := r.2 }, r.1, 1⟩

/-! ## Sample stores used by the closed statements -/

/-- One freezer (identity 1) holding one item (identity 1). -/
def storeOneItem : Store :=
  ⟨[⟨1, "Garage", 10, 10⟩], [⟨1, "Uncategorized"⟩],
   [⟨1, "Peas", 1, 1, some "500g", some 7, 11, 11⟩], 1, 1, 1⟩

/-- One freezer (identity 1) and no item. -/
def storeNoItem : Store :=
  ⟨[⟨1, "Garage", 10, 10⟩], [⟨1, "Uncategorized"⟩], [], 1, 1, 0⟩

/-- An environment whose storage call number `k` fails, and no other. -/
def Env.failAt (k : Nat) : Env :=
  ⟨fun n => n == k, fun _ => 0, fun _ => none, fun _ => false⟩

/-- An environment in which no storage call fails and `rows.Scan` returns an
error on the rows of `items` whose identity is `id`, and on no other. -/
def Env.scanErrAt (id : Int) : Env :=
  ⟨fun _ => false, fun _ => 0, fun _ => none, fun r => decide (r.id = id)⟩

/-- Two freezers (identities 1 and 2); items 1 and 2 are in freezer 1. -/
def storeTwoFreezers : Store :=
  ⟨[⟨1, "Freezer 1", 10, 10⟩, ⟨2, "Freezer 2", 11, 11⟩], [⟨1, "Uncategorized"⟩],
   [⟨1, "Item 1", 0, 1, some "", some 0, 12, 12⟩, ⟨2, "Item 2", 0, 1, some "", some 0, 13, 13⟩],
   2, 1, 2⟩

/-- What a move of the identities `ids` to freezer `t` may do to a row `r` of
table `items`, `r1` being the row afterwards: identity, name, category, weight,
frozen date and creation timestamp are kept; a row whose identity occurs in
`ids` refers to freezer `t`; any other row is unchanged. -/
def MovedRow (ids : List Int) (t : Int) (r r1 : ItemRow) : Prop :=
  r1.id = r.id ∧ r1.name = r.name ∧ r1.category_id = r.category_id ∧
  r1.weight = r.weight ∧ r1.frozen_date = r.frozen_date ∧ r1.created_at = r.created_at ∧
  (r.id ∈ ids → r1.freezer_id = t) ∧ (r.id ∉ ids → r1 = r)

/-- What `CreateItemsBatch` persists for the payload `p`: a row `r` carrying the
five inserted fields of `p`. -/
def RowOfPayload (p : Item) (r : ItemRow) : Prop :=
  r.name = p.Name ∧ r.category_id = p.CategoryID ∧ r.freezer_id = p.FreezerID ∧
  r.weight = some p.Weight ∧ r.frozen_date = some p.FrozenDate

/-! ## Generated keys -/

theorem foldl_max_ge (ids : List Int) (seq : Int) :
    seq ≤ ids.foldl max seq ∧ ∀ x ∈ ids, x ≤ ids.foldl max seq := by
  induction ids generalizing seq with
  | nil => simp
  | cons a rest ih =>
    simp only [List.foldl_cons, List.mem_cons]
    obtain ⟨h1, h2⟩ := ih (max seq a)
    refine ⟨le_trans (le_max_left _ _) h1, ?_⟩
    rintro x (rfl | hx)
    · exact le_trans (le_max_right _ _) h1
    · exact h2 x hx

theorem seq_lt_nextId (seq : Int) (ids : List Int) : seq < nextId seq ids := by
  have h := (foldl_max_ge ids seq).1
  unfold nextId
  omega

theorem mem_lt_nextId (seq : Int) (ids : List Int) (x : Int) (hx : x ∈ ids) :
    x < nextId seq ids := by
  have h := (foldl_max_ge ids seq).2 x hx
  unfold nextId
  omega

/-! ## DeleteFreezer -/

theorem countItemsOfFreezer_pos (st : Store) (id : Int) :
    0 < countItemsOfFreezer st id ↔ ∃ r ∈ st.items, r.freezer_id = id := by
  unfold countItemsOfFreezer
  rw [List.length_pos_iff_exists_mem]
  constructor
  · rintro ⟨r, hr⟩
    rw [List.mem_filter] at hr
    exact ⟨r, hr.1, by simpa using hr.2⟩
  · rintro ⟨r, hr, hid⟩
    exact ⟨r, List.mem_filter.mpr ⟨hr, by simpa using hid⟩⟩

/-- C1 (as stated, refuted): the freezer 1 of `storeOneItem` holds an item, yet
`DeleteFreezer` answers 500, not 409, when its count query returns an error. -/
theorem C1_counterexample :
    (∃ r ∈ storeOneItem.items, r.freezer_id = 1) ∧
    (DeleteFreezer (Env.failAt 0) storeOneItem 1).code = 500 ∧
    (DeleteFreezer (Env.failAt 0) storeOneItem 1).code ≠ 409 := by
  refine ⟨⟨_, List.mem_singleton.mpr rfl, rfl⟩, ?_, ?_⟩ <;> decide

/-- C1 (amended): when some persisted item has `freezer_id = id`, `DeleteFreezer`
leaves the store unchanged whatever the storage does, issues only the count
query, and answers 409 when that query succeeds and 500 when it fails. -/
theorem C1_deleteFreezer_with_items (env : Env) (st : Store) (id : Int)
    (hdep : ∃ r ∈ st.items, r.freezer_id = id) :
    (DeleteFreezer env st id).store = st ∧
    (DeleteFreezer env st id).calls = 1 ∧
    (env.fails 0 = false →
      (DeleteFreezer env st id).code = 409 ∧
      (DeleteFreezer env st id).body = .errorText (some "Cannot delete freezer with items")) ∧
    (env.fails 0 = true → (DeleteFreezer env st id).code = 500) := by
  have hpos := (countItemsOfFreezer_pos st id).mpr hdep
  unfold DeleteFreezer
  cases h0 : env.fails 0 <;> simp [hpos]

theorem C1_witness :
    (DeleteFreezer (Env.quiet 0) storeOneItem 1).store = storeOneItem ∧
    (DeleteFreezer (Env.quiet 0) storeOneItem 1).code = 409 := by
  have h := C1_deleteFreezer_with_items (Env.quiet 0) storeOneItem 1
    ⟨_, List.mem_singleton.mpr rfl, rfl⟩
  exact ⟨h.1, (h.2.2.1 rfl).1⟩

/-- C2: when no persisted item has `freezer_id = id` and neither the count query
nor the delete fails, `DeleteFreezer` answers 200; a following `GetFreezers`
whose query does not fail and whose rows are all read lists exactly the
freezers listed before whose identity is not `id`; items and categories are
unchanged. -/
theorem C2_deleteFreezer_without_items (env env1 : Env) (st : Store) (id : Int)
    (hnone : ∀ r ∈ st.items, r.freezer_id ≠ id)
    (h0 : env.fails 0 = false) (h1 : env.fails 1 = false)
    (hq : env1.fails 0 = false) (hr : env1.cut 0 = none) :
    (DeleteFreezer env st id).code = 200 ∧
    (GetFreezers env1 st).body = .freezers st.freezers ∧
    (GetFreezers env1 (DeleteFreezer env st id).store).code = 200 ∧
    (GetFreezers env1 (DeleteFreezer env st id).store).body =
      .freezers (st.freezers.filter (fun f => decide (f.ID ≠ id))) ∧
    (DeleteFreezer env st id).store.items = st.items ∧
    (DeleteFreezer env st id).store.categories = st.categories := by
  have hz : ¬ 0 < countItemsOfFreezer st id := by
    rw [countItemsOfFreezer_pos]
    rintro ⟨r, hr, hid⟩
    exact hnone r hr hid
  simp [DeleteFreezer, GetFreezers, rowsRead, deleteFreezerRow, h0, h1, hq, hr, hz]

theorem C2_witness :
    (DeleteFreezer (Env.quiet 0) storeNoItem 1).code = 200 ∧
    (GetFreezers (Env.quiet 0) (DeleteFreezer (Env.quiet 0) storeNoItem 1).store).body =
      .freezers [] := by
  have h := C2_deleteFreezer_without_items (Env.quiet 0) (Env.quiet 0) storeNoItem 1
    (by simp [storeNoItem]) rfl rfl rfl rfl
  exact ⟨h.1, h.2.2.2.1⟩

/-! ## MoveItems on an empty list -/

/-- C6: for every store, environment and target freezer, `MoveItems` with an
empty (or absent) identity list answers 400 with the text `No items to move`,
returns the store it was given and issues no storage call at all (no `Begin`,
no `Prepare`, no `Exec`, no `Commit`). -/
theorem C6_moveItems_empty (env : Env) (st : Store) (t : Int) :
    MoveItems env st (some ⟨[], t⟩) = ⟨400, .errorText (some "No items to move"), st, 0⟩ := by
  simp [MoveItems]

/-! ## seedData and createTables -/

theorem insertCategory_of_empty (name : String) (st : Store) (h : st.categories = []) :
    insertCategory name st =
      some ({ st with categories := [⟨st.categorySeq + 1, name⟩],
                      categorySeq := st.categorySeq + 1 }, st.categorySeq + 1) := by
  simp [insertCategory, h, nextId]

theorem seedData_of_nonempty (env : Env) (st : Store) (h : st.categories ≠ []) :
    seedData env st = st := by
  have hc : countCategories st ≠ 0 := by
    simpa [countCategories] using h
  unfold seedData
  cases env.fails 0 <;> simp [hc]

theorem seedData_of_empty (env : Env) (st : Store) (h : st.categories = [])
    (h0 : env.fails 0 = false) (h1 : env.fails 1 = false) :
    seedData env st =
      { st with categories := [⟨st.categorySeq + 1, "Uncategorized"⟩],
                categorySeq := st.categorySeq + 1 } := by
  simp [seedData, countCategories, h, h0, h1, insertCategory_of_empty]

/-- C8 (as stated, refuted): on the empty store, whose category table is empty,
`seedData` leaves the table empty when its insert returns an error, and so does
the bootstrap `createTables`; a second bootstrap then gives a different table. -/
theorem C8_counterexample :
    emptyStore.categories = [] ∧
    (seedData (Env.failAt 1) emptyStore).categories = [] ∧
    createTables (Env.failAt 4) emptyStore = some emptyStore ∧
    (createTables (Env.quiet 0) emptyStore).map Store.categories
      = some [⟨1, "Uncategorized"⟩] := by
  refine ⟨rfl, ?_, ?_, ?_⟩ <;> decide

/-- C8 (amended): when the count query and the insert of `seedData` do not fail,
`seedData` turns an empty category table into the table with exactly one row,
named `Uncategorized`; on a non-empty table it changes nothing, whatever the
storage does; hence a second run, in any environment, changes nothing after
such a first run. The same holds for `createTables` when none of its five
storage calls fails. -/
theorem C8_seedData (env env2 : Env) (st : Store)
    (h0 : env.fails 0 = false) (h1 : env.fails 1 = false) :
    (st.categories = [] →
      ∃ id, (seedData env st).categories = [⟨id, "Uncategorized"⟩]) ∧
    (st.categories ≠ [] → seedData env st = st ∧ seedData env2 st = st) ∧
    seedData env2 (seedData env st) = seedData env st ∧
    (seedData env st).freezers = st.freezers ∧
    (seedData env st).items = st.items ∧
    ((∀ n, n < 5 → env2.fails n = false) →
      createTables env2 st = some (seedData (env2.shift 3) st) ∧
      (st.categories = [] →
        ∃ id, (createTables env2 st).map Store.categories = some [⟨id, "Uncategorized"⟩]) ∧
      (st.categories ≠ [] → createTables env2 st = some st) ∧
      (createTables env2 st).bind (createTables env2) = createTables env2 st) := by
  have key : ∀ (e : Env), e.fails 0 = false → e.fails 1 = false →
      (seedData e st).categories ≠ [] := by
    intro e e0 e1
    by_cases hc : st.categories = []
    · rw [seedData_of_empty e st hc e0 e1]; simp
    · rw [seedData_of_nonempty e st hc]; exact hc
  refine ⟨?_, ?_, ?_, ?_, ?_, ?_⟩
  · intro hc
    exact ⟨st.categorySeq + 1, by rw [seedData_of_empty env st hc h0 h1]⟩
  · intro hc
    exact ⟨seedData_of_nonempty env st hc, seedData_of_nonempty env2 st hc⟩
  · exact seedData_of_nonempty env2 _ (key env h0 h1)
  · by_cases hc : st.categories = []
    · rw [seedData_of_empty env st hc h0 h1]
    · rw [seedData_of_nonempty env st hc]
  · by_cases hc : st.categories = []
    · rw [seedData_of_empty env st hc h0 h1]
    · rw [seedData_of_nonempty env st hc]
  · intro hq
    have q0 := hq 0 (by decide)
    have q1 := hq 1 (by decide)
    have q2 := hq 2 (by decide)
    have q3 : (env2.shift 3).fails 0 = false := by simpa [Env.shift] using hq 3 (by decide)
    have q4 : (env2.shift 3).fails 1 = false := by simpa [Env.shift] using hq 4 (by decide)
    have hct : ∀ s, createTables env2 s = some (seedData (env2.shift 3) s) := by
      intro s; simp [createTables, q0, q1, q2]
    refine ⟨hct st, ?_, ?_, ?_⟩
    · intro hc
      exact ⟨st.categorySeq + 1, by rw [hct, seedData_of_empty _ st hc q3 q4]; rfl⟩
    · intro hc
      rw [hct, seedData_of_nonempty _ st hc]
    · rw [hct st, Option.some_bind, hct]
      rw [seedData_of_nonempty (env2.shift 3) _ (key _ q3 q4)]

theorem C8_witness :
    (∃ id, (seedData (Env.quiet 0) emptyStore).categories = [⟨id, "Uncategorized"⟩]) ∧
    (createTables (Env.quiet 0) emptyStore).bind (createTables (Env.quiet 0))
      = createTables (Env.quiet 0) emptyStore := by
  have h := C8_seedData (Env.quiet 0) (Env.quiet 0) emptyStore rfl rfl
  exact ⟨h.1 rfl, (h.2.2.2.2.2 (fun _ _ => rfl)).2.2.2⟩

/-! ## CreateCategory -/

theorem insertCategory_of_dup (name : String) (st : Store)
    (h : ∃ x ∈ st.categories, x.Name = name) : insertCategory name st = none := by
  have ha : st.categories.any (fun c => decide (c.Name = name)) = true := by
    rw [List.any_eq_true]
    obtain ⟨x, hx, hn⟩ := h
    exact ⟨x, hx, by simpa using hn⟩
  simp [insertCategory, ha]

theorem insertCategory_of_fresh (name : String) (st : Store)
    (h : ∀ x ∈ st.categories, x.Name ≠ name) :
    insertCategory name st =
      some ({ st with
                categories := st.categories ++
                  [⟨nextId st.categorySeq (st.categories.map Category.ID), name⟩],
                categorySeq := nextId st.categorySeq (st.categories.map Category.ID) },
            nextId st.categorySeq (st.categories.map Category.ID)) := by
  have ha : st.categories.any (fun c => decide (c.Name = name)) = false := by
    rw [List.any_eq_false]
    intro x hx
    simpa using h x hx
  simp [insertCategory, ha]

/-- C9 (as stated, refuted): `Meat` names no category of `storeNoItem`, yet
`CreateCategory` answers 500 and adds nothing when its insert returns a storage
error. -/
theorem C9_counterexample :
    (∀ x ∈ storeNoItem.categories, x.Name ≠ "Meat") ∧
    (CreateCategory (Env.failAt 0) storeNoItem (some ⟨0, "Meat"⟩)).code = 500 ∧
    (CreateCategory (Env.failAt 0) storeNoItem (some ⟨0, "Meat"⟩)).store = storeNoItem := by
  refine ⟨?_, ?_, ?_⟩ <;> decide

/-- C9 (amended): for a name that a persisted category already has,
`CreateCategory` answers 500 and leaves the store, hence the category table and
its count, unchanged. For a name not yet present it answers 201 when the insert
meets no storage error, adding exactly one category with that name and an
identity no persisted category has, which it returns; when the insert meets a
storage error it answers 500 and leaves the store unchanged. -/
theorem C9_createCategory (env : Env) (st : Store) (c : Category) :
    ((∃ x ∈ st.categories, x.Name = c.Name) →
      (CreateCategory env st (some c)).code = 500 ∧
      (CreateCategory env st (some c)).store = st) ∧
    ((∀ x ∈ st.categories, x.Name ≠ c.Name) → env.fails 0 = false →
      (CreateCategory env st (some c)).code = 201 ∧
      ∃ id, (∀ x ∈ st.categories, x.ID ≠ id) ∧
        (CreateCategory env st (some c)).store.categories = st.categories ++ [⟨id, c.Name⟩] ∧
        (CreateCategory env st (some c)).body = .category ⟨id, c.Name⟩ ∧
        (CreateCategory env st (some c)).store.freezers = st.freezers ∧
        (CreateCategory env st (some c)).store.items = st.items) ∧
    ((∀ x ∈ st.categories, x.Name ≠ c.Name) → env.fails 0 = true →
      (CreateCategory env st (some c)).code = 500 ∧
      (CreateCategory env st (some c)).store = st) := by
  refine ⟨?_, ?_, ?_⟩
  · intro hdup
    unfold CreateCategory
    cases env.fails 0 <;> simp [insertCategory_of_dup c.Name st hdup]
  · intro hfresh h0
    refine ⟨by simp [CreateCategory, h0, insertCategory_of_fresh c.Name st hfresh], ?_⟩
    refine ⟨nextId st.categorySeq (st.categories.map Category.ID), ?_, ?_⟩
    · intro x hx he
      have := mem_lt_nextId st.categorySeq (st.categories.map Category.ID) x.ID
        (List.mem_map_of_mem _ hx)
      omega
    · simp [CreateCategory, h0, insertCategory_of_fresh c.Name st hfresh]
  · intro _ h0
    simp [CreateCategory, h0]

theorem C9_witness :
    (CreateCategory (Env.quiet 0) storeNoItem (some ⟨0, "Uncategorized"⟩)).code = 500 ∧
    (CreateCategory (Env.quiet 0) storeNoItem (some ⟨0, "Meat"⟩)).code = 201 := by
  have h1 := C9_createCategory (Env.quiet 0) storeNoItem ⟨0, "Uncategorized"⟩
  have h2 := C9_createCategory (Env.quiet 0) storeNoItem ⟨0, "Meat"⟩
  exact ⟨(h1.1 ⟨_, List.mem_singleton.mpr rfl, rfl⟩).1,
    (h2.2.1 (by decide) rfl).1⟩

/-! ## CreateFreezer -/

/-- C10 (as stated, refuted): on the store produced by bootstrap, `CreateFreezer`
with a payload whose name is missing (decoded as the empty string) answers 201
and persists a freezer whose name is the empty string. -/
theorem C10_counterexample :
    createTables (Env.quiet 0) emptyStore = some ⟨[], [⟨1, "Uncategorized"⟩], [], 0, 1, 0⟩ ∧
    (CreateFreezer (Env.quiet 5) ⟨[], [⟨1, "Uncategorized"⟩], [], 0, 1, 0⟩
      (some ⟨0, "", 0, 0⟩)).code = 201 ∧
    (CreateFreezer (Env.quiet 5) ⟨[], [⟨1, "Uncategorized"⟩], [], 0, 1, 0⟩
      (some ⟨0, "", 0, 0⟩)).store.freezers = [⟨1, "", 5, 5⟩] := by
  refine ⟨?_, ?_, ?_⟩ <;> decide

/-- C10 (amended): `CreateFreezer` persists the name of the decoded payload as it
is, the empty string included: when the insert meets no storage error it
answers 201 and appends exactly one freezer row carrying the payload's name and
a fresh identity, which the response echoes; the other rows are untouched. -/
theorem C10_createFreezer (env : Env) (st : Store) (f : Freezer)
    (h0 : env.fails 0 = false) :
    (CreateFreezer env st (some f)).code = 201 ∧
    ∃ id, (∀ x ∈ st.freezers, x.ID ≠ id) ∧
      (CreateFreezer env st (some f)).store.freezers =
        st.freezers ++ [⟨id, f.Name, env.now 0, env.now 0⟩] ∧
      (CreateFreezer env st (some f)).body = .freezer { f with ID := id } ∧
      (CreateFreezer env st (some f)).store.items = st.items ∧
      (CreateFreezer env st (some f)).store.categories = st.categories := by
  refine ⟨by simp [CreateFreezer, h0], ?_⟩
  refine ⟨nextId st.freezerSeq (st.freezers.map Freezer.ID), ?_, ?_⟩
  · intro x hx he
    have := mem_lt_nextId st.freezerSeq (st.freezers.map Freezer.ID) x.ID
      (List.mem_map_of_mem _ hx)
    omega
  · simp [CreateFreezer, h0, insertFreezer]

theorem C10_witness :
    (CreateFreezer (Env.quiet 5) emptyStore (some ⟨0, "", 0, 0⟩)).code = 201 ∧
    ∃ id, (CreateFreezer (Env.quiet 5) emptyStore (some ⟨0, "", 0, 0⟩)).store.freezers =
      [⟨id, "", 5, 5⟩] := by
  have h := C10_createFreezer (Env.quiet 5) emptyStore ⟨0, "", 0, 0⟩ rfl
  obtain ⟨hc, id, _, hf, _⟩ := h
  exact ⟨hc, id, hf⟩

/-! ## The loops over prepared statements -/

theorem execEach_ok_of_no_failure (env : Env) (step : Time → Int → Store → Store) :
    ∀ (ids : List Int) (n : Nat) (tx : Store),
      (∀ k, n ≤ k → k < n + ids.length → env.fails k = false) →
      ∃ tx1, execEach env step n ids tx = .ok tx1 := by
  intro ids
  induction ids with
  | nil => intro n tx _; exact ⟨tx, rfl⟩
  | cons id rest ih =>
    intro n tx h
    have hn : env.fails n = false := h n (le_refl n) (by simp)
    have hrest : ∀ k, n + 1 ≤ k → k < n + 1 + rest.length → env.fails k = false := by
      intro k hk1 hk2
      exact h k (by omega) (by simp only [List.length_cons]; omega)
    obtain ⟨tx1, h1⟩ := ih (n + 1) (step (env.now n) id tx) hrest
    exact ⟨tx1, by simp [execEach, hn, h1]⟩

theorem execEach_ok_invariant (env : Env) (step : Time → Int → Store → Store) :
    ∀ (ids : List Int) (n : Nat) (tx tx1 : Store),
      execEach env step n ids tx = .ok tx1 →
      ∀ k, n ≤ k → k < n + ids.length → env.fails k = false := by
  intro ids
  induction ids with
  | nil => intro n tx tx1 _ k h1 h2; simp at h2; omega
  | cons id rest ih =>
    intro n tx tx1 h k hk1 hk2
    cases hn : env.fails n with
    | true => simp [execEach, hn] at h
    | false =>
      simp only [execEach, hn] at h
      by_cases hk : k = n
      · rw [hk]; exact hn
      · exact ih (n + 1) _ tx1 (by simpa using h) k (by omega)
          (by simp only [List.length_cons] at hk2; omega)

theorem execEach_delete (env : Env) :
    ∀ (ids : List Int) (n : Nat) (tx tx1 : Store),
      execEach env (fun _ id s => deleteItemRow s id) n ids tx = .ok tx1 →
      tx1 = ids.foldl deleteItemRow tx := by
  intro ids
  induction ids with
  | nil => intro n tx tx1 h; simp [execEach] at h; simp [h]
  | cons id rest ih =>
    intro n tx tx1 h
    cases hn : env.fails n with
    | true => simp [execEach, hn] at h
    | false =>
      simp only [execEach, hn] at h
      simpa using ih (n + 1) _ tx1 (by simpa using h)

theorem foldl_deleteItemRow (ids : List Int) (st : Store) :
    ids.foldl deleteItemRow st =
      { st with items := st.items.filter (fun r => decide (r.id ∉ ids)) } := by
  induction ids generalizing st with
  | nil => simp
  | cons id rest ih =>
    rw [List.foldl_cons, ih]
    simp only [deleteItemRow, List.filter_filter, List.mem_cons, not_or]
    congr 1
    apply List.filter_congr
    intro r _
    by_cases h1 : r.id = id <;> by_cases h2 : r.id ∈ rest <;> simp [h1, h2]

/-! ## ConsumeItemsBatch -/

theorem DeleteItem_store (e : Env) (he : e.fails 0 = false) (s : Store) (id : Int) :
    (DeleteItem e s id).store = deleteItemRow s id := by
  simp [DeleteItem, he]

/-- C5: for every store and every list `ids` (empty, with duplicates or with
identities of no item), a `ConsumeItemsBatch` answering 200 leaves the store
reached by running the single `DeleteItem` (its statement not failing) on each
element of `ids` in order, which is the previous store with the items whose
identity occurs in `ids` removed; any other answer is 500 with the store
unchanged; and 200 is the answer whenever no storage call fails. -/
theorem C5_consume_refines_deletes (env e : Env) (st : Store) (ids : List Int)
    (he : e.fails 0 = false) :
    ((ConsumeItemsBatch env st (some ⟨ids⟩)).code = 200 →
      (ConsumeItemsBatch env st (some ⟨ids⟩)).store =
        ids.foldl (fun s id => (DeleteItem e s id).store) st ∧
      (ConsumeItemsBatch env st (some ⟨ids⟩)).store =
        { st with items := st.items.filter (fun r => decide (r.id ∉ ids)) }) ∧
    ((ConsumeItemsBatch env st (some ⟨ids⟩)).code ≠ 200 →
      (ConsumeItemsBatch env st (some ⟨ids⟩)).code = 500 ∧
      (ConsumeItemsBatch env st (some ⟨ids⟩)).store = st) ∧
    ((∀ k, k ≤ ids.length + 2 → env.fails k = false) →
      (ConsumeItemsBatch env st (some ⟨ids⟩)).code = 200) := by
  have hfold : ids.foldl (fun s id => (DeleteItem e s id).store) st
      = ids.foldl deleteItemRow st := by
    congr 1
    funext s id
    exact DeleteItem_store e he s id
  rw [hfold, foldl_deleteItemRow]
  cases ids with
  | nil =>
    refine ⟨?_, ?_, ?_⟩
    · intro _
      have : (ConsumeItemsBatch env st (some ⟨[]⟩)).store = st := by
        unfold ConsumeItemsBatch
        cases env.fails 0 <;> cases env.fails 1 <;> simp
      simp [this]
    · unfold ConsumeItemsBatch
      cases env.fails 0 <;> cases env.fails 1 <;> simp
    · intro hq
      simp [ConsumeItemsBatch, hq 0 (by omega), hq 1 (by omega)]
  | cons a rest =>
    refine ⟨?_, ?_, ?_⟩
    · cases h0 : env.fails 0 with
      | true => simp [ConsumeItemsBatch, h0]
      | false =>
        cases h1 : env.fails 1 with
        | true => simp [ConsumeItemsBatch, h0, h1]
        | false =>
          cases hE : execEach env (fun _ id s => deleteItemRow s id) 2 (a :: rest) st with
          | error k => simp [ConsumeItemsBatch, h0, h1, hE]
          | ok tx =>
            have htx := execEach_delete env (a :: rest) 2 st tx hE
            rw [foldl_deleteItemRow] at htx
            cases hc : env.fails (2 + (rest.length + 1)) with
            | true => simp [ConsumeItemsBatch, h0, h1, hE, hc]
            | false =>
              intro _
              simp only [ConsumeItemsBatch, h0, h1, hE, hc, List.length_cons]
              simpa using htx
    · cases h0 : env.fails 0 with
      | true => simp [ConsumeItemsBatch, h0]
      | false =>
        cases h1 : env.fails 1 with
        | true => simp [ConsumeItemsBatch, h0, h1]
        | false =>
          cases hE : execEach env (fun _ id s => deleteItemRow s id) 2 (a :: rest) st with
          | error k => simp [ConsumeItemsBatch, h0, h1, hE]
          | ok tx =>
            cases hc : env.fails (2 + (rest.length + 1)) <;>
              simp [ConsumeItemsBatch, h0, h1, hE, hc]
    · intro hq
      obtain ⟨tx1, h⟩ := execEach_ok_of_no_failure env
        (fun _ id s => deleteItemRow s id) (a :: rest) 2 st
        (fun k _ hk => hq k (by omega))
      have hc : env.fails (2 + (rest.length + 1)) = false :=
        hq _ (by simp only [List.length_cons]; omega)
      simp [ConsumeItemsBatch, hq 0 (by omega), hq 1 (by omega), h, hc]

theorem C5_witness :
    (ConsumeItemsBatch (Env.quiet 0) storeTwoFreezers (some ⟨[2, 7, 2]⟩)).store =
      [2, 7, 2].foldl (fun s id => (DeleteItem (Env.quiet 0) s id).store) storeTwoFreezers := by
  have h := C5_consume_refines_deletes (Env.quiet 0) (Env.quiet 0) storeTwoFreezers [2, 7, 2] rfl
  exact (h.1 (h.2.2 (fun _ _ => rfl))).1

/-! ## MoveItems -/

theorem MovedRow_step (now : Time) (t id : Int) (rest : List Int) (r r1 : ItemRow)
    (h : MovedRow rest t
      (if r.id = id then { r with freezer_id := t, updated_at := now } else r) r1) :
    MovedRow (id :: rest) t r r1 := by
  by_cases hid : r.id = id
  · rw [if_pos hid] at h
    obtain ⟨e1, e2, e3, e4, e5, e6, hin, hout⟩ := h
    refine ⟨e1, e2, e3, e4, e5, e6, ?_, ?_⟩
    · intro _
      by_cases hr : r.id ∈ rest
      · exact hin hr
      · rw [hout hr]
    · intro hn
      exact absurd (hid ▸ List.mem_cons_self _ _) hn
  · rw [if_neg hid] at h
    obtain ⟨e1, e2, e3, e4, e5, e6, hin, hout⟩ := h
    refine ⟨e1, e2, e3, e4, e5, e6, ?_, ?_⟩
    · intro hm
      rcases List.mem_cons.mp hm with h1 | h1
      · exact absurd h1 hid
      · exact hin h1
    · intro hn
      exact hout (fun h1 => hn (List.mem_cons_of_mem _ h1))

theorem execEach_move (env : Env) (t : Int) :
    ∀ (ids : List Int) (n : Nat) (tx tx1 : Store),
      execEach env (fun now id s => moveItemRow now t id s) n ids tx = .ok tx1 →
      tx1.freezers = tx.freezers ∧ tx1.categories = tx.categories ∧
      tx1.freezerSeq = tx.freezerSeq ∧ tx1.categorySeq = tx.categorySeq ∧
      tx1.itemSeq = tx.itemSeq ∧
      List.Forall₂ (MovedRow ids t) tx.items tx1.items := by
  intro ids
  induction ids with
  | nil =>
    intro n tx tx1 h
    simp only [execEach, Except.ok.injEq] at h
    subst h
    refine ⟨rfl, rfl, rfl, rfl, rfl, ?_⟩
    apply List.forall₂_same.mpr
    intro r _
    exact ⟨rfl, rfl, rfl, rfl, rfl, rfl, fun h => absurd h (List.not_mem_nil _), fun _ => rfl⟩
  | cons id rest ih =>
    intro n tx tx1 h
    cases hn : env.fails n with
    | true => simp [execEach, hn] at h
    | false =>
      simp only [execEach, hn] at h
      obtain ⟨f1, f2, f3, f4, f5, hrows⟩ := ih (n + 1) _ tx1 (by simpa using h)
      refine ⟨f1, f2, f3, f4, f5, ?_⟩
      simp only [moveItemRow] at hrows
      rw [List.forall₂_map_left_iff] at hrows
      exact hrows.imp (fun r r1 hr => MovedRow_step (env.now n) t id rest r r1 hr)

theorem forall2_eq_of_mem {α : Type} (R : α → α → Prop) :
    ∀ (l l1 : List α), List.Forall₂ R l l1 → (∀ a ∈ l, ∀ b, R a b → b = a) → l1 = l := by
  intro l l1 h
  induction h with
  | nil => intro _; rfl
  | cons hab _ ih =>
    intro hall
    rw [hall _ (List.mem_cons_self _ _) _ hab,
      ih (fun a ha b hb => hall a (List.mem_cons_of_mem _ ha) b hb)]

theorem MoveItems_ok (env : Env) (st : Store) (ids : List Int) (t : Int)
    (h : (MoveItems env st (some ⟨ids, t⟩)).code = 200) :
    (MoveItems env st (some ⟨ids, t⟩)).store.freezers = st.freezers ∧
    (MoveItems env st (some ⟨ids, t⟩)).store.categories = st.categories ∧
    (MoveItems env st (some ⟨ids, t⟩)).store.freezerSeq = st.freezerSeq ∧
    (MoveItems env st (some ⟨ids, t⟩)).store.categorySeq = st.categorySeq ∧
    (MoveItems env st (some ⟨ids, t⟩)).store.itemSeq = st.itemSeq ∧
    List.Forall₂ (MovedRow ids t) st.items (MoveItems env st (some ⟨ids, t⟩)).store.items := by
  by_cases hlen : ids.length = 0
  · simp [MoveItems, hlen] at h
  cases h0 : env.fails 0 with
  | true => simp [MoveItems, h0, hlen] at h
  | false =>
    cases h1 : env.fails 1 with
    | true => simp [MoveItems, h0, h1, hlen] at h
    | false =>
      cases hE : execEach env (fun now id s => moveItemRow now t id s) 2 ids st with
      | error k => simp [MoveItems, h0, h1, hE, hlen] at h
      | ok tx =>
        cases hc : env.fails (2 + ids.length) with
        | true => simp [MoveItems, h0, h1, hE, hc, hlen] at h
        | false =>
          have hst : (MoveItems env st (some ⟨ids, t⟩)).store = tx := by
            simp [MoveItems, h0, h1, hE, hc, hlen]
          rw [hst]
          exact execEach_move env t ids 2 st tx hE

/-- C4: for every store, non-empty list `ids` and target freezer `t`: when
`MoveItems` answers 200, the freezers and categories are as before and the item
table holds the same rows in the same order, each related to its former self by
`MovedRow` (a row whose identity occurs in `ids` now refers to freezer `t`,
with name, category, weight, frozen date and creation timestamp kept; any other
row is unchanged), so that identities matching no item have no effect; any
other answer is 500 with the whole store, hence every `freezer_id`, unchanged;
and 200 is the answer whenever no storage call fails. -/
theorem C4_moveItems (env : Env) (st : Store) (ids : List Int) (t : Int) (hne : ids ≠ []) :
    ((MoveItems env st (some ⟨ids, t⟩)).code = 200 →
      (MoveItems env st (some ⟨ids, t⟩)).store.freezers = st.freezers ∧
      (MoveItems env st (some ⟨ids, t⟩)).store.categories = st.categories ∧
      List.Forall₂ (MovedRow ids t) st.items (MoveItems env st (some ⟨ids, t⟩)).store.items ∧
      ((∀ r ∈ st.items, r.id ∉ ids) → (MoveItems env st (some ⟨ids, t⟩)).store = st)) ∧
    ((MoveItems env st (some ⟨ids, t⟩)).code ≠ 200 →
      (MoveItems env st (some ⟨ids, t⟩)).code = 500 ∧
      (MoveItems env st (some ⟨ids, t⟩)).store = st) ∧
    ((∀ k, k ≤ ids.length + 2 → env.fails k = false) →
      (MoveItems env st (some ⟨ids, t⟩)).code = 200) := by
  have hlen : ids.length ≠ 0 := by
    intro h; exact hne (List.length_eq_zero.mp h)
  refine ⟨?_, ?_, ?_⟩
  · intro hok
    obtain ⟨f1, f2, f3, f4, f5, hrows⟩ := MoveItems_ok env st ids t hok
    refine ⟨f1, f2, hrows, ?_⟩
    intro hno
    have hitems : (MoveItems env st (some ⟨ids, t⟩)).store.items = st.items :=
      forall2_eq_of_mem _ _ _ hrows (fun a ha b hb => hb.2.2.2.2.2.2.2 (hno a ha))
    generalize (MoveItems env st (some ⟨ids, t⟩)).store = tx at *
    cases tx
    cases st
    simp_all
  · cases h0 : env.fails 0 with
    | true => simp [MoveItems, h0, hlen]
    | false =>
      cases h1 : env.fails 1 with
      | true => simp [MoveItems, h0, h1, hlen]
      | false =>
        cases hE : execEach env (fun now id s => moveItemRow now t id s) 2 ids st with
        | error k => simp [MoveItems, h0, h1, hE, hlen]
        | ok tx =>
          cases hc : env.fails (2 + ids.length) <;>
            simp [MoveItems, h0, h1, hE, hc, hlen]
  · intro hq
    obtain ⟨tx1, h⟩ := execEach_ok_of_no_failure env
      (fun now id s => moveItemRow now t id s) ids 2 st (fun k _ hk => hq k (by omega))
    have hc : env.fails (2 + ids.length) = false := hq _ (by omega)
    simp [MoveItems, hq 0 (by omega), hq 1 (by omega), h, hc, hlen]

theorem C4_witness :
    (MoveItems (Env.quiet 20) storeTwoFreezers (some ⟨[1, 2], 2⟩)).code = 200 ∧
    List.Forall₂ (MovedRow [1, 2] 2) storeTwoFreezers.items
      (MoveItems (Env.quiet 20) storeTwoFreezers (some ⟨[1, 2], 2⟩)).store.items := by
  have h := C4_moveItems (Env.quiet 20) storeTwoFreezers [1, 2] 2 (by decide)
  have hc := h.2.2 (fun _ _ => rfl)
  exact ⟨hc, (h.1 hc).2.2.1⟩

/-! ## CreateItemsBatch -/

theorem createItemsLoop_ok_of_no_failure (env : Env) :
    ∀ (items : List Item) (n : Nat) (tx : Store),
      (∀ k, n ≤ k → k < n + items.length → env.fails k = false) →
      ∃ out, createItemsLoop env n items tx = .ok out := by
  intro items
  induction items with
  | nil => intro n tx _; exact ⟨(tx, []), rfl⟩
  | cons i rest ih =>
    intro n tx h
    have hn : env.fails n = false := h n (le_refl n) (by simp)
    have hrest : ∀ k, n + 1 ≤ k → k < n + 1 + rest.length → env.fails k = false := by
      intro k hk1 hk2
      exact h k (by omega) (by simp only [List.length_cons]; omega)
    obtain ⟨out, h1⟩ := ih (n + 1) (insertItem (env.now n) i tx).1 hrest
    exact ⟨(out.1, { i with ID := (insertItem (env.now n) i tx).2 } :: out.2),
      by simp [createItemsLoop, hn, h1]⟩

theorem createItemsLoop_ok_calls (env : Env) :
    ∀ (items : List Item) (n : Nat) (tx : Store) (out : Store × List Item),
      createItemsLoop env n items tx = .ok out →
      ∀ k, n ≤ k → k < n + items.length → env.fails k = false := by
  intro items
  induction items with
  | nil => intro n tx out _ k h1 h2; simp at h2; omega
  | cons i rest ih =>
    intro n tx out h k hk1 hk2
    cases hn : env.fails n with
    | true => simp [createItemsLoop, hn] at h
    | false =>
      simp only [createItemsLoop, hn] at h
      cases hrec : createItemsLoop env (n + 1) rest (insertItem (env.now n) i tx).1 with
      | error e => simp [hrec] at h
      | ok out1 =>
        by_cases hk : k = n
        · rw [hk]; exact hn
        · exact ih (n + 1) _ out1 hrec k (by omega)
            (by simp only [List.length_cons] at hk2; omega)

theorem createItemsLoop_ok (env : Env) :
    ∀ (items : List Item) (n : Nat) (tx : Store) (out : Store × List Item),
      createItemsLoop env n items tx = .ok out →
      out.1.freezers = tx.freezers ∧ out.1.categories = tx.categories ∧
      ∃ rows, out.1.items = tx.items ++ rows ∧
        List.Forall₂ RowOfPayload items rows ∧
        out.2 = List.zipWith (fun p r => { p with ID := r.id }) items rows ∧
        List.Pairwise (fun a b => a < b) (rows.map ItemRow.id) ∧
        ∀ r ∈ rows, tx.itemSeq < r.id ∧ ∀ o ∈ tx.items, o.id < r.id := by
  intro items
  induction items with
  | nil =>
    intro n tx out h
    simp only [createItemsLoop, Except.ok.injEq] at h
    subst h
    exact ⟨rfl, rfl, [], by simp⟩
  | cons i rest ih =>
    intro n tx out h
    cases hn : env.fails n with
    | true => simp [createItemsLoop, hn] at h
    | false =>
      simp only [createItemsLoop, hn] at h
      cases hrec : createItemsLoop env (n + 1) rest (insertItem (env.now n) i tx).1 with
      | error k => simp [hrec] at h
      | ok out1 =>
        simp only [hrec, Bool.false_eq_true, if_false, Except.ok.injEq] at h
        subst h
        obtain ⟨g1, g2, rows1, hitems, hrows, hout, hsorted, hfresh⟩ := ih (n + 1) _ out1 hrec
        have hid0 : tx.itemSeq < nextId tx.itemSeq (tx.items.map ItemRow.id) :=
          seq_lt_nextId _ _
        have hold : ∀ o ∈ tx.items, o.id < nextId tx.itemSeq (tx.items.map ItemRow.id) :=
          fun o ho => mem_lt_nextId _ _ _ (List.mem_map_of_mem _ ho)
        refine ⟨by simpa [insertItem] using g1, by simpa [insertItem] using g2,
          ⟨nextId tx.itemSeq (tx.items.map ItemRow.id), i.Name, i.CategoryID, i.FreezerID,
            some i.Weight, some i.FrozenDate, env.now n, env.now n⟩ :: rows1, ?_, ?_, ?_, ?_, ?_⟩
        · simpa [insertItem] using hitems
        · exact List.Forall₂.cons ⟨rfl, rfl, rfl, rfl, rfl⟩ hrows
        · simp [hout, insertItem]
        · simp only [List.map_cons, List.pairwise_cons]
          refine ⟨?_, hsorted⟩
          intro b hb
          obtain ⟨r, hr, rfl⟩ := List.mem_map.mp hb
          have := (hfresh r hr).1
          simpa [insertItem] using this
        · intro r hr
          rcases List.mem_cons.mp hr with rfl | hr1
          · exact ⟨hid0, hold⟩
          · have h1 := (hfresh r hr1).1
            have h2 := (hfresh r hr1).2
            simp only [insertItem] at h1 h2
            refine ⟨by omega, ?_⟩
            intro o ho
            exact h2 o (List.mem_append_left _ ho)

/-- C3: for every store, environment and list of `N` payloads, `CreateItemsBatch`
ends in one of two ways. Either it answers 201, the freezers and categories are
as before, and the item table is the former table followed by `N` new rows, one
per payload in order with the payload's inserted fields, whose identities are
pairwise distinct and differ from every identity persisted before, the response
being the payloads with those identities filled in. Or it answers 500 and the
store is the store before the call. The first happens exactly when none of the
`N + 3` storage calls (`Begin`, `Prepare`, the `N` inserts, `Commit`) fails. -/
theorem C3_createItemsBatch (env : Env) (st : Store) (items : List Item) :
    (((CreateItemsBatch env st (some items)).code = 201 ∧
        (CreateItemsBatch env st (some items)).store.freezers = st.freezers ∧
        (CreateItemsBatch env st (some items)).store.categories = st.categories ∧
        ∃ rows, (CreateItemsBatch env st (some items)).store.items = st.items ++ rows ∧
          rows.length = items.length ∧
          List.Forall₂ RowOfPayload items rows ∧
          (rows.map ItemRow.id).Nodup ∧
          (∀ r ∈ rows, ∀ o ∈ st.items, r.id ≠ o.id) ∧
          (CreateItemsBatch env st (some items)).body =
            .items (List.zipWith (fun p r => { p with ID := r.id }) items rows)) ∨
      ((CreateItemsBatch env st (some items)).code = 500 ∧
        (CreateItemsBatch env st (some items)).store = st)) ∧
    ((CreateItemsBatch env st (some items)).code = 201 ↔
      ∀ k, k ≤ items.length + 2 → env.fails k = false) := by
  have hgood : (∀ k, k ≤ items.length + 2 → env.fails k = false) →
      (CreateItemsBatch env st (some items)).code = 201 := by
    intro hq
    obtain ⟨out, h⟩ := createItemsLoop_ok_of_no_failure env items 2 st
      (fun k _ hk => hq k (by omega))
    have hc : env.fails (2 + items.length) = false := hq _ (by omega)
    simp [CreateItemsBatch, hq 0 (by omega), hq 1 (by omega), h, hc]
  cases h0 : env.fails 0 with
  | true =>
    refine ⟨Or.inr (by simp [CreateItemsBatch, h0]), ?_, hgood⟩
    intro h
    simp [CreateItemsBatch, h0] at h
  | false =>
    cases h1 : env.fails 1 with
    | true =>
      refine ⟨Or.inr (by simp [CreateItemsBatch, h0, h1]), ?_, hgood⟩
      intro h
      simp [CreateItemsBatch, h0, h1] at h
    | false =>
      cases hE : createItemsLoop env 2 items st with
      | error k =>
        refine ⟨Or.inr (by simp [CreateItemsBatch, h0, h1, hE]), ?_, hgood⟩
        intro h
        simp [CreateItemsBatch, h0, h1, hE] at h
      | ok out =>
        cases hc : env.fails (2 + items.length) with
        | true =>
          refine ⟨Or.inr (by simp [CreateItemsBatch, h0, h1, hE, hc]), ?_, hgood⟩
          intro h
          simp [CreateItemsBatch, h0, h1, hE, hc] at h
        | false =>
          have hcode : (CreateItemsBatch env st (some items)).code = 201 := by
            simp [CreateItemsBatch, h0, h1, hE, hc]
          have hstore : (CreateItemsBatch env st (some items)).store = out.1 := by
            simp [CreateItemsBatch, h0, h1, hE, hc]
          have hbody : (CreateItemsBatch env st (some items)).body = .items out.2 := by
            simp [CreateItemsBatch, h0, h1, hE, hc]
          obtain ⟨g1, g2, rows, hitems, hrows, hout, hsorted, hfresh⟩ :=
            createItemsLoop_ok env items 2 st out hE
          refine ⟨Or.inl ⟨hcode, by rw [hstore]; exact g1, by rw [hstore]; exact g2,
            rows, by rw [hstore]; exact hitems, hrows.length_eq.symm, hrows,
            hsorted.imp (fun h => ne_of_lt h), ?_, by rw [hbody, hout]⟩, ?_, hgood⟩
          · intro r hr o ho he
            have := (hfresh r hr).2 o ho
            omega
          · intro _ k hk
            by_cases k0 : k = 0
            · rw [k0]; exact h0
            by_cases k1 : k = 1
            · rw [k1]; exact h1
            by_cases kc : k = 2 + items.length
            · rw [kc]; exact hc
            exact createItemsLoop_ok_calls env items 2 st out hE k (by omega) (by omega)

/-! ## The move scenario: move, list, delete the source, delete the target -/

theorem forall2_imp_mem {α β : Type} (R S : α → β → Prop) :
    ∀ (l : List α) (l1 : List β), List.Forall₂ R l l1 →
      (∀ a ∈ l, ∀ b, R a b → S a b) → List.Forall₂ S l l1 := by
  intro l l1 h
  induction h with
  | nil => intro _; exact List.Forall₂.nil
  | cons hab _ ih =>
    intro hall
    exact List.Forall₂.cons (hall _ (List.mem_cons_self _ _) _ hab)
      (ih (fun a ha b hb => hall a (List.mem_cons_of_mem _ ha) b hb))

theorem forall2_exists_left {α β : Type} (R : α → β → Prop) :
    ∀ (l : List α) (l1 : List β), List.Forall₂ R l l1 → ∀ b ∈ l1, ∃ a ∈ l, R a b := by
  intro l l1 h
  induction h with
  | nil => intro b hb; cases hb
  | cons hab _ ih =>
    intro b hb
    rcases List.mem_cons.mp hb with rfl | hb1
    · exact ⟨_, List.mem_cons_self _ _, hab⟩
    · obtain ⟨a, ha, hr⟩ := ih b hb1
      exact ⟨a, List.mem_cons_of_mem _ ha, hr⟩

theorem forall2_exists_right {α β : Type} (R : α → β → Prop) :
    ∀ (l : List α) (l1 : List β), List.Forall₂ R l l1 → ∀ a ∈ l, ∃ b ∈ l1, R a b := by
  intro l l1 h
  induction h with
  | nil => intro a ha; cases ha
  | cons hab _ ih =>
    intro a ha
    rcases List.mem_cons.mp ha with rfl | ha1
    · exact ⟨_, List.mem_cons_self _ _, hab⟩
    · obtain ⟨b, hb, hr⟩ := ih a ha1
      exact ⟨b, List.mem_cons_of_mem _ hb, hr⟩

theorem scanRows_of_no_error (env : Env) :
    ∀ (rows : List ItemRow), (∀ r ∈ rows, env.scanErr r = false) →
      scanRows env rows = some (rows.map scanItem) := by
  intro rows
  induction rows with
  | nil => intro _; rfl
  | cons r rest ih =>
    intro h
    have hr : env.scanErr r = false := h r (List.mem_cons_self _ _)
    have hrest := ih (fun x hx => h x (List.mem_cons_of_mem _ hx))
    simp [scanRows, hr, hrest]

/-- C7 (as stated, refuted): in `storeTwoFreezers` the items of freezer 1 are
exactly items 1 and 2; `MoveItems` of both to freezer 2 answers 200; yet
`DeleteFreezer` of freezer 1 answers 500 and keeps it when its count query
returns an error, and `GetItems` answers 500, listing nothing, when the scan of
item 1 returns an error. -/
theorem C7_counterexample :
    (MoveItems (Env.quiet 20) storeTwoFreezers (some ⟨[1, 2], 2⟩)).code = 200 ∧
    (DeleteFreezer (Env.failAt 0)
      (MoveItems (Env.quiet 20) storeTwoFreezers (some ⟨[1, 2], 2⟩)).store 1).code = 500 ∧
    (∃ f ∈ (DeleteFreezer (Env.failAt 0)
      (MoveItems (Env.quiet 20) storeTwoFreezers (some ⟨[1, 2], 2⟩)).store 1).store.freezers,
      f.ID = 1) ∧
    (GetItems (Env.scanErrAt 1)
      (MoveItems (Env.quiet 20) storeTwoFreezers (some ⟨[1, 2], 2⟩)).store).code = 500 ∧
    (GetItems (Env.scanErrAt 1)
      (MoveItems (Env.quiet 20) storeTwoFreezers (some ⟨[1, 2], 2⟩)).store).body
      = .errorText none := by
  refine ⟨by decide, by decide, ⟨⟨1, "Freezer 1", 10, 10⟩, by decide, rfl⟩, by decide, by decide⟩

/-- C7 (amended): let `A` and `B` be distinct freezer identities, `B` persisted,
the items with `freezer_id = A` being exactly the non-empty set of persisted
items whose identity occurs in `ids`. After a `MoveItems` of `ids` to `B` that
answered 200: `GetItems`, when its query does not fail, all rows are read and
the scan of no persisted row returns an error, answers 200 with one entry per
former row, in order, carrying that row's
identity and name, with freezer reference `B` for each item that was in `A` and
the former reference for the others; `DeleteFreezer` of `A`, when neither its
count query nor its delete fails, answers 200 and leaves the former freezers
without `A`; after it, `DeleteFreezer` of `B`, when its count query does not
fail, answers 409 and leaves the store unchanged, `B` still persisted. -/
theorem C7_move_scenario (envM envG envA envB : Env) (st : Store) (A B : Int) (ids : List Int)
    (hAB : A ≠ B)
    (hB : ∃ f ∈ st.freezers, f.ID = B)
    (hS : ∀ r ∈ st.items, r.freezer_id = A ↔ r.id ∈ ids)
    (hne : ∃ r ∈ st.items, r.freezer_id = A)
    (hmove : (MoveItems envM st (some ⟨ids, B⟩)).code = 200)
    (hG : envG.fails 0 = false) (hGr : envG.cut 0 = none)
    (hGs : ∀ r ∈ (MoveItems envM st (some ⟨ids, B⟩)).store.items, envG.scanErr r = false)
    (hA0 : envA.fails 0 = false) (hA1 : envA.fails 1 = false)
    (hB0 : envB.fails 0 = false) :
    (GetItems envG (MoveItems envM st (some ⟨ids, B⟩)).store).code = 200 ∧
    (∃ l, (GetItems envG (MoveItems envM st (some ⟨ids, B⟩)).store).body = .items l ∧
      List.Forall₂ (fun r i => i.ID = r.id ∧ i.Name = r.name ∧
          (r.freezer_id = A → i.FreezerID = B) ∧
          (r.freezer_id ≠ A → i.FreezerID = r.freezer_id)) st.items l) ∧
    (DeleteFreezer envA (MoveItems envM st (some ⟨ids, B⟩)).store A).code = 200 ∧
    (DeleteFreezer envA (MoveItems envM st (some ⟨ids, B⟩)).store A).store.freezers =
      st.freezers.filter (fun f => decide (f.ID ≠ A)) ∧
    (∀ f ∈ (DeleteFreezer envA (MoveItems envM st (some ⟨ids, B⟩)).store A).store.freezers,
      f.ID ≠ A) ∧
    (DeleteFreezer envB
      (DeleteFreezer envA (MoveItems envM st (some ⟨ids, B⟩)).store A).store B).code = 409 ∧
    (DeleteFreezer envB
      (DeleteFreezer envA (MoveItems envM st (some ⟨ids, B⟩)).store A).store B).store =
      (DeleteFreezer envA (MoveItems envM st (some ⟨ids, B⟩)).store A).store ∧
    (∃ f ∈ (DeleteFreezer envB
      (DeleteFreezer envA (MoveItems envM st (some ⟨ids, B⟩)).store A).store B).store.freezers,
      f.ID = B) := by
  obtain ⟨f1, _, _, _, _, hrows⟩ := MoveItems_ok envM st ids B hmove
  generalize (MoveItems envM st (some ⟨ids, B⟩)).store = st1 at *
  -- no row refers to `A` after the move
  have hnoA : ¬ 0 < countItemsOfFreezer st1 A := by
    rw [countItemsOfFreezer_pos]
    rintro ⟨r1, hr1, hfa⟩
    obtain ⟨r, hr, hm⟩ := forall2_exists_left _ _ _ hrows r1 hr1
    by_cases hin : r.id ∈ ids
    · exact hAB (hfa ▸ hm.2.2.2.2.2.2.1 hin)
    · rw [hm.2.2.2.2.2.2.2 hin] at hfa
      exact hin ((hS r hr).mp hfa)
  -- some row refers to `B` after the move
  have hsomeB : ∃ r1 ∈ st1.items, r1.freezer_id = B := by
    obtain ⟨r, hr, hfa⟩ := hne
    obtain ⟨r1, hr1, hm⟩ := forall2_exists_right _ _ _ hrows r hr
    exact ⟨r1, hr1, hm.2.2.2.2.2.2.1 ((hS r hr).mp hfa)⟩
  have hdelA : DeleteFreezer envA st1 A = ⟨200, .message "deleted", deleteFreezerRow st1 A, 2⟩ := by
    simp [DeleteFreezer, hA0, hA1, hnoA]
  have hposB : 0 < countItemsOfFreezer (deleteFreezerRow st1 A) B := by
    rw [countItemsOfFreezer_pos]
    exact hsomeB
  have hdelB : DeleteFreezer envB (deleteFreezerRow st1 A) B =
      ⟨409, .errorText (some "Cannot delete freezer with items"), deleteFreezerRow st1 A, 1⟩ := by
    simp [DeleteFreezer, hB0, hposB]
  have hfr : (deleteFreezerRow st1 A).freezers =
      st.freezers.filter (fun f => decide (f.ID ≠ A)) := by
    simp [deleteFreezerRow, f1]
  rw [hdelA]
  simp only [hdelB]
  have hscan := scanRows_of_no_error envG st1.items hGs
  refine ⟨by simp [GetItems, rowsRead, hG, hGr, hscan],
    ⟨st1.items.map scanItem, by simp [GetItems, rowsRead, hG, hGr, hscan], ?_⟩,
    trivial, hfr, ?_, trivial, trivial, ?_⟩
  · rw [List.forall₂_map_right_iff]
    refine forall2_imp_mem _ _ _ _ hrows (fun r hr r1 hm => ?_)
    obtain ⟨e1, e2, _, _, _, _, hin, hout⟩ := hm
    refine ⟨e1, e2, ?_, ?_⟩
    · intro hfa
      exact hin ((hS r hr).mp hfa)
    · intro hfa
      rw [hout (fun h => hfa ((hS r hr).mpr h))]
      rfl
  · intro f hf
    rw [hfr, List.mem_filter] at hf
    simpa using hf.2
  · obtain ⟨f, hf, hid⟩ := hB
    refine ⟨f, ?_, hid⟩
    rw [hfr, List.mem_filter]
    exact ⟨hf, by simpa [hid] using hAB.symm⟩

theorem C7_witness :
    (DeleteFreezer (Env.quiet 21)
      (MoveItems (Env.quiet 20) storeTwoFreezers (some ⟨[1, 2], 2⟩)).store 1).code = 200 ∧
    (DeleteFreezer (Env.quiet 22)
      (DeleteFreezer (Env.quiet 21)
        (MoveItems (Env.quiet 20) storeTwoFreezers (some ⟨[1, 2], 2⟩)).store 1).store 2).code
      = 409 := by
  have h := C7_move_scenario (Env.quiet 20) (Env.quiet 20) (Env.quiet 21) (Env.quiet 22)
    storeTwoFreezers 1 2 [1, 2] (by decide) (by decide) (by decide) (by decide) (by decide)
    rfl rfl (fun _ _ => rfl) rfl rfl rfl
  exact ⟨h.2.2.1, h.2.2.2.2.2.1⟩

end Freezo
